import Mathlib

/-!
Verification of the adaptive-bitrate streaming pipeline.

Shallow embedding of the two core components:
- the transcode worker (`src/container/index.js`): rendition catalog,
  rendition planning, output-key formatting, the sequential fail-fast
  encode/upload loop, segment-index padding, and master-manifest assembly;
- the event dispatcher (`src/consumer/src/index.ts`): per-message body
  handling (empty body, malformed JSON, S3 test event) and the per-record
  validation / compute-dispatch / acknowledgment loop.

External collaborators (S3, SQS, ECS, ffmpeg) are modelled by oracles:
the outcome of each encode+upload, of the manifest upload, and of each
compute-dispatch launch is an input to the embedded functions, and the
calls the code issues are recorded as explicit action traces.
-/

set_option maxRecDepth 100000

set_option maxHeartbeats 1000000

/-! ### Rendition catalog (src/container/index.js, `RESOLUTIONS`) -/

/-- One entry of the static rendition catalog: name, target width and
height, and the video bitrate as the literal string passed to ffmpeg. -/
structure Rendition where
  name : String
  width : Nat
  height : Nat
  bitrate : String
deriving DecidableEq

/-- The static catalog, in the source's order (ascending resolution). -/
def RESOLUTIONS : List Rendition :=
  [ ⟨"144p", 256, 144, "100k"⟩,
    ⟨"240p", 426, 240, "300k"⟩,
    ⟨"360p", 640, 360, "800k"⟩,
    ⟨"480p", 854, 480, "1400k"⟩,
    ⟨"720p", 1280, 720, "2800k"⟩,
    ⟨"1080p", 1920, 1080, "4500k"⟩,
    ⟨"1440p", 2560, 1440, "9000k"⟩,
    ⟨"2160p", 3840, 2160, "12000k"⟩,
    ⟨"4320p", 7680, 4320, "50000k"⟩ ]

/-- Planner `getValidResolutions(width, height)`: the catalog filtered to entries
that fit inside the probed dimensions (src/container/index.js:84-86). -/
def getValidResolutions (w h : Nat) : List Rendition :=
  RESOLUTIONS.filter (fun r => decide (r.width ≤ w) && decide (r.height ≤ h))

/-! ### JS `parseInt` on the bitrate strings -/

/-- Numeric value of a list of decimal digit characters (most significant
first), as accumulated by JS `parseInt`. -/
def digitsVal (cs : List Char) : Nat :=
  cs.foldl (fun acc c => 10 * acc + (c.toNat - 48)) 0

/-- JS `parseInt(s)` restricted to the shapes occurring in the catalog:
the longest prefix of decimal digits, read as a base-10 number
(`parseInt("1400k") = 1400`). -/
def jsParseInt (s : String) : Nat :=
  digitsVal (s.data.takeWhile Char.isDigit)

/-! ### Master manifest (src/container/index.js:155-172) -/

/-- One `#EXT-X-STREAM-INF` entry of the master playlist, exactly as the
worker renders it: bandwidth is `parseInt(bitrate) * 1000`, resolution is
`width x height`, and the variant path is `{name}/{name}.m3u8`. -/
def masterEntry (r : Rendition) : String :=
  "#EXT-X-STREAM-INF:BANDWIDTH=" ++ Nat.repr (jsParseInt r.bitrate * 1000) ++
    ",RESOLUTION=" ++ Nat.repr r.width ++ "x" ++ Nat.repr r.height ++
    "\n" ++ r.name ++ "/" ++ r.name ++ ".m3u8"

/-- The master playlist text the worker writes after all renditions
succeed: the fixed header followed by the entries for the (re-computed)
filtered catalog, joined by newlines. -/
def masterPlaylistContent (w h : Nat) : String :=
  "#EXTM3U\n#EXT-X-VERSION:3\n" ++
    String.intercalate "\n"
      ((RESOLUTIONS.filter
          (fun r => decide (r.width ≤ w) && decide (r.height ≤ h))).map masterEntry)

/-- Specification-level kilobit rate of a bitrate string `"NNNNk"`: all
the characters before the trailing `k`, required to be decimal digits and
read as a number (0 if malformed). This is the spec's `videoBitrateKbps`,
defined independently of JS `parseInt` (which scans a digit prefix). -/
def specKbps (s : String) : Nat :=
  if (s.data.dropLast).all Char.isDigit then digitsVal s.data.dropLast else 0

/-- Specification-level stream-info entry: BANDWIDTH is
`videoBitrateKbps * 1000`, RESOLUTION is `"{width}x{height}"`, followed by
the relative variant path `{name}/{name}.m3u8`. -/
def specEntry (r : Rendition) : String :=
  "#EXT-X-STREAM-INF:BANDWIDTH=" ++ Nat.repr (specKbps r.bitrate * 1000) ++
    ",RESOLUTION=" ++ Nat.repr r.width ++ "x" ++ Nat.repr r.height ++
    "\n" ++ r.name ++ "/" ++ r.name ++ ".m3u8"

/-! ### Claim C2: rendition planning -/

/-- Claim C2: for every probed width `w` and height `h`, the planner
returns exactly the subsequence of catalog entries `r` with
`r.width ≤ w` and `r.height ≤ h`, in the catalog's original ascending
resolution order; being a total function it is deterministic and never
fails. -/
theorem claim_C2 (w h : Nat) :
    getValidResolutions w h
        = RESOLUTIONS.filter (fun r => decide (r.width ≤ w ∧ r.height ≤ h))
      ∧ (getValidResolutions w h).Sublist RESOLUTIONS
      ∧ (getValidResolutions w h).Pairwise
          (fun a b => a.width < b.width ∧ a.height < b.height) := by
  refine ⟨?_, ?_, ?_⟩
  · unfold getValidResolutions
    apply List.filter_congr
    intro r _
    simp [Bool.decide_and]
  · exact List.filter_sublist RESOLUTIONS
  · have hres : RESOLUTIONS.Pairwise
        (fun a b => a.width < b.width ∧ a.height < b.height) := by decide
    exact hres.sublist (List.filter_sublist RESOLUTIONS)

/-! ### Claim C4: master manifest contents -/

/-- Claim C4: the master manifest text consists of the
`#EXTM3U` / `#EXT-X-VERSION:3` header followed by exactly one stream-info
entry per planned rendition, in the plan's ascending order, each entry
carrying `BANDWIDTH = videoBitrateKbps * 1000` (e.g. bitrate `"1400k"`
yields `BANDWIDTH=1400000`), `RESOLUTION = "{width}x{height}"`, and the
relative variant path `{name}/{name}.m3u8`. -/
theorem claim_C4 (w h : Nat) :
    masterPlaylistContent w h
        = "#EXTM3U\n#EXT-X-VERSION:3\n" ++
            String.intercalate "\n" ((getValidResolutions w h).map specEntry)
      ∧ specKbps "1400k" * 1000 = 1400000 := by
  constructor
  · unfold masterPlaylistContent getValidResolutions
    congr 1
    congr 1
    apply List.map_congr_left
    intro r hr
    have hmem : r ∈ RESOLUTIONS := (List.filter_sublist RESOLUTIONS).subset hr
    have : ∀ x ∈ RESOLUTIONS, masterEntry x = specEntry x := by decide
    exact this r hmem
  · decide

/-! ### Output key formatting (src/container/index.js, `getFormattedKey`) -/

/-- JS `String.prototype.replace` with a plain string pattern: replaces
only the leftmost occurrence of `pat` by `rep`, and returns the string
unchanged when `pat` does not occur. -/
def replaceFirst : List Char → List Char → List Char → List Char
  | [], pat, rep => if pat.isEmpty then rep else []
  | c :: cs, pat, rep =>
    if (c :: cs).take pat.length == pat then rep ++ (c :: cs).drop pat.length
    else c :: replaceFirst cs pat rep

/-- Key formatter `getFormattedKey(key)` (src/container/index.js:33-35):
`key.split(".")[0].replace("videos/", "").replace("//", "/")` — the part
of the key before the first `.`, with the first occurrence of `videos/`
removed and then the first occurrence of `//` collapsed to `/`. -/
def getFormattedKey (k : String) : String :=
  String.mk
    (replaceFirst
      (replaceFirst (k.data.takeWhile (fun c => c != '.')) "videos/".data "".data)
      "//".data "/".data)

/-- Characters of `replaceFirst s pat rep` come from `s` or from `rep`. -/
theorem replaceFirst_mem (pat rep : List Char) :
    ∀ (s : List Char), ∀ c ∈ replaceFirst s pat rep, c ∈ s ∨ c ∈ rep := by
  intro s
  induction s with
  | nil =>
    intro c hc
    unfold replaceFirst at hc
    by_cases hp : pat.isEmpty <;> simp [hp] at hc
    exact Or.inr hc
  | cons a as ih =>
    intro c hc
    unfold replaceFirst at hc
    by_cases hm : ((a :: as).take pat.length == pat) = true
    · rw [if_pos hm] at hc
      rcases List.mem_append.mp hc with h | h
      · exact Or.inr h
      · exact Or.inl (List.mem_of_mem_drop h)
    · rw [if_neg hm] at hc
      rcases List.mem_cons.mp hc with h | h
      · exact Or.inl (h ▸ List.mem_cons_self a as)
      · rcases ih c h with h' | h'
        · exact Or.inl (List.mem_cons_of_mem a h')
        · exact Or.inr h'

/-- Occurrence of `pat` as a contiguous substring of `s` (the shape JS
`replace` searches for). -/
def occursIn (pat s : List Char) : Prop :=
  ∃ l r : List Char, l ++ pat ++ r = s

instance (pat s : List Char) : Decidable (occursIn pat s) := by
  unfold occursIn
  exact inferInstanceAs (Decidable (pat <:+: s))

/-- When `pat` does not occur in `s` as a contiguous substring,
`replaceFirst` leaves `s` unchanged. -/
theorem replaceFirst_no_occurrence (pat rep : List Char) :
    ∀ (s : List Char), ¬ occursIn pat s → replaceFirst s pat rep = s := by
  intro s
  induction s with
  | nil =>
    intro hno
    unfold replaceFirst
    have : ¬ pat.isEmpty := by
      intro hp
      exact hno ⟨[], [], by simp [List.isEmpty_iff.mp hp]⟩
    simp [this]
  | cons a as ih =>
    intro hno
    unfold replaceFirst
    have hm : ¬ ((a :: as).take pat.length == pat) = true := by
      intro hm
      have htake : (a :: as).take pat.length = pat := by
        simpa using hm
      refine hno ⟨[], (a :: as).drop pat.length, ?_⟩
      have hsplit := List.take_append_drop pat.length (a :: as)
      rw [htake] at hsplit
      simpa using hsplit
    rw [if_neg hm]
    have hno' : ¬ occursIn pat as := by
      rintro ⟨l, r, hlr⟩
      exact hno ⟨a :: l, r, by rw [← hlr]; rfl⟩
    rw [ih hno']

/-- Counterexample for claim C3: `getFormattedKey` is not idempotent
(`"videos/videos/a.mp4"` maps to `"videos/a"`, which maps on a second
application to `"a"`), and it collapses only the first doubled separator
(`"a//b//c.mp4"` maps to `"a/b//c"`, not `"a/b/c"`). -/
theorem claim_C3_counterexample :
    getFormattedKey (getFormattedKey "videos/videos/a.mp4")
        ≠ getFormattedKey "videos/videos/a.mp4"
      ∧ getFormattedKey "a//b//c.mp4" = "a/b//c"
      ∧ getFormattedKey "a//b//c.mp4" ≠ "a/b/c" := by
  refine ⟨?_, by decide, ?_⟩ <;> decide

/-- Claim C3 as amended: `getFormattedKey` is a pure, total,
deterministic function that removes the substring from and including the
first `.` (so its output never contains a `.`), removes the first literal
occurrence of `"videos/"`, collapses the first resulting doubled path
separator into one, and leaves keys without `.`, `videos/` or `//`
unchanged; `getFormattedKey "videos//clips/demo.mp4" = "/clips/demo"`.
It is not idempotent in general (see the counterexample). -/
theorem claim_C3 (k : String) :
    (∀ c ∈ (getFormattedKey k).data, c ≠ '.')
      ∧ (¬ occursIn "videos/".data k.data → ¬ occursIn "//".data k.data →
          (∀ c ∈ k.data, c ≠ '.') → getFormattedKey k = k)
      ∧ getFormattedKey "videos//clips/demo.mp4" = "/clips/demo"
      ∧ getFormattedKey "videos/videos/a.mp4" = "videos/a" := by
  refine ⟨?_, ?_, by decide, by decide⟩
  · intro c hc
    unfold getFormattedKey at hc
    simp only [String.data] at hc
    rcases replaceFirst_mem "//".data "/".data _ c hc with h | h
    · rcases replaceFirst_mem "videos/".data "".data _ c h with h' | h'
      · have := List.mem_takeWhile_imp h'
        simpa using this
      · simp at h'
    · intro heq
      rw [heq] at h
      simp at h
  · intro hv hs hd
    unfold getFormattedKey
    have h1 : k.data.takeWhile (fun c => c != '.') = k.data := by
      rw [List.takeWhile_eq_self_iff]
      intro c hc
      simpa using hd c hc
    rw [h1, replaceFirst_no_occurrence _ _ _ hv, replaceFirst_no_occurrence _ _ _ hs]

/-- Witness for the amended C3 at a clean key: a key containing no `.`,
no `videos/` and no `//` is left unchanged. -/
theorem claim_C3_witness : getFormattedKey "clips/demo" = "clips/demo" :=
  (claim_C3 "clips/demo").2.1 (by decide) (by decide) (by decide)

/-! ### Worker job lifecycle (src/container/index.js, `main`)

The per-rendition `for` loop encodes and uploads one rendition at a time;
on the first failing rendition the worker calls `process.exit(1)` from the
`catch` block, so no later rendition is attempted and the master manifest
is never built or uploaded. The outcome of each rendition's encode+upload
(ffmpeg and S3 are external) is an oracle `encOk`, and the outcome of the
master-manifest upload is the oracle `mOk`. -/

/-- Observable outcome of the rendition loop: rendition names whose
encode was attempted, rendition names whose files were fully uploaded
(published, in plan order), and whether the loop finished without a
failure. -/
structure LoopOut where
  attempted : List String
  published : List String
  ok : Bool
deriving DecidableEq

/-- The sequential fail-fast rendition loop
(src/container/index.js:118-153): each planned rendition is attempted in
order; a success publishes its files and continues; the first failure
stops the loop immediately (`process.exit(1)` in the source). -/
def runLoop (encOk : Rendition → Bool) : List Rendition → LoopOut
  | [] => ⟨[], [], true⟩
  | r :: rs =>
    if encOk r then
      let o := runLoop encOk rs
      ⟨r.name :: o.attempted, r.name :: o.published, o.ok⟩
    else ⟨[r.name], [], false⟩

/-- Observable outcome of one worker job: renditions attempted, renditions
published, the master-manifest text if its upload was attempted, and the
process exit status. -/
structure WorkerResult where
  attempted : List String
  published : List String
  masterUploaded : Option String
  exitCode : Nat
deriving DecidableEq

/-- The worker `main` after probing (src/container/index.js:106-178):
plan the renditions, run the fail-fast loop, and only if every planned
rendition succeeded build and upload the master playlist; exit 0 on full
success, and 1 on any rendition failure or a failed manifest upload. -/
def runWorker (w h : Nat) (encOk : Rendition → Bool) (mOk : Bool) : WorkerResult :=
  let o := runLoop encOk (getValidResolutions w h)
  if o.ok then
    ⟨o.attempted, o.published, some (masterPlaylistContent w h),
      if mOk then 0 else 1⟩
  else ⟨o.attempted, o.published, none, 1⟩

/-- Outcome of the rendition loop when the first `i` renditions succeed
and the `(i+1)`-st fails: the failing rendition is the last one attempted,
only the prior successes are published, and the loop reports failure. -/
theorem runLoop_firstFail (encOk : Rendition → Bool) :
    ∀ (L : List Rendition) (i : Nat) (hi : i < L.length),
      (∀ r ∈ L.take i, encOk r = true) → encOk (L.get ⟨i, hi⟩) = false →
      runLoop encOk L =
        ⟨(L.take (i + 1)).map Rendition.name, (L.take i).map Rendition.name, false⟩ := by
  intro L
  induction L with
  | nil => intro i hi; simp at hi
  | cons r rs ih =>
    intro i hi hpre hfail
    cases i with
    | zero =>
      simp only [List.get] at hfail
      simp [runLoop, hfail]
    | succ j =>
      have hr : encOk r = true := hpre r (by simp)
      have hpre' : ∀ x ∈ rs.take j, encOk x = true := by
        intro x hx
        exact hpre x (by simp [List.take, hx])
      have hfail' : encOk (rs.get ⟨j, Nat.lt_of_succ_lt_succ hi⟩) = false := hfail
      have := ih j (Nat.lt_of_succ_lt_succ hi) hpre' hfail'
      simp [runLoop, hr, this]

/-! ### Claim C1: fail-fast, no manifest, no rollback -/

/-- Claim C1: for every plan (every probe) and index `i`, if the first `i`
planned renditions succeed and the `(i+1)`-st fails its encode or upload,
the worker attempts no rendition after it, never builds or uploads the
master manifest, exits non-zero, and the renditions published before the
failure remain published (no rollback). -/
theorem claim_C1 (w h : Nat) (encOk : Rendition → Bool) (mOk : Bool) (i : Nat)
    (hi : i < (getValidResolutions w h).length)
    (hpre : ∀ r ∈ (getValidResolutions w h).take i, encOk r = true)
    (hfail : encOk ((getValidResolutions w h).get ⟨i, hi⟩) = false) :
    (runWorker w h encOk mOk).attempted
        = ((getValidResolutions w h).take (i + 1)).map Rendition.name
      ∧ (runWorker w h encOk mOk).published
        = ((getValidResolutions w h).take i).map Rendition.name
      ∧ (runWorker w h encOk mOk).masterUploaded = none
      ∧ (runWorker w h encOk mOk).exitCode = 1 := by
  have hloop := runLoop_firstFail encOk (getValidResolutions w h) i hi hpre hfail
  unfold runWorker
  rw [hloop]
  simp

/-- Failure oracle for the C1 witness: only the 144p rendition succeeds. -/
def encOkOnly144 (r : Rendition) : Bool := r.name == "144p"

/-- Witness for C1 at probe 640×360 (plan `[144p, 240p, 360p]`) with the
second rendition failing: attempted `[144p, 240p]`, published `[144p]`,
no manifest, exit 1. -/
theorem claim_C1_witness :
    (runWorker 640 360 encOkOnly144 true).attempted
        = ((getValidResolutions 640 360).take (1 + 1)).map Rendition.name
      ∧ (runWorker 640 360 encOkOnly144 true).published
        = ((getValidResolutions 640 360).take 1).map Rendition.name
      ∧ (runWorker 640 360 encOkOnly144 true).masterUploaded = none
      ∧ (runWorker 640 360 encOkOnly144 true).exitCode = 1 :=
  claim_C1 640 360 encOkOnly144 true 1 (by decide) (by decide) (by decide)

/-! ### Segment index padding (src/container/index.js:107-108, 132) -/

/-- Number of decimal digits of a natural number, with one digit for 0
(the spec-level digit count). -/
def digitCount (n : Nat) : Nat :=
  if n < 10 then 1 else 1 + digitCount (n / 10)
decreasing_by omega

/-- Estimate `Math.ceil(duration / 10)` — the worker's estimate of the number of
10-second HLS segments, for a (rational) probed duration. -/
def estimatedSegments (d : ℚ) : Nat :=
  (Int.ceil (d / 10)).toNat

/-- Width `estimatedSegments.toString().length` — the zero-padding width passed
to ffmpeg's segment filename pattern. -/
def paddingOf (d : ℚ) : Nat :=
  (Nat.repr (estimatedSegments d)).length

/-- Rendering of a segment index under ffmpeg's `%0{w}d` pattern: the
decimal digits, left-padded with zeros to width `w`. -/
def zeroPad (w n : Nat) : String :=
  String.mk (List.replicate (w - (Nat.repr n).length) '0') ++ Nat.repr n

/-- A number below 10 has one decimal digit. -/
theorem digitCount_lt10 (n : Nat) (h : n < 10) : digitCount n = 1 := by
  unfold digitCount
  simp [h]

/-- A number of 10 or more has one more digit than its quotient by 10. -/
theorem digitCount_ge10 (n : Nat) (h : 10 ≤ n) :
    digitCount n = 1 + digitCount (n / 10) := by
  conv_lhs => unfold digitCount
  rw [if_neg (Nat.not_lt.mpr h)]

/-- With enough fuel, `Nat.toDigitsCore` prepends exactly `digitCount n`
characters. -/
theorem toDigitsCore_digit_len :
    ∀ (f n : Nat) (ds : List Char), n < f →
      (Nat.toDigitsCore 10 f n ds).length = digitCount n + ds.length := by
  intro f
  induction f with
  | zero => intro n ds h; exact absurd h (Nat.not_lt_zero n)
  | succ f ih =>
    intro n ds h
    simp only [Nat.toDigitsCore]
    by_cases h10 : n / 10 = 0
    · rw [if_pos h10]
      rw [digitCount_lt10 n (by omega)]
      simp [Nat.add_comm]
    · rw [if_neg h10]
      have hlt : n / 10 < f := by
        have h1 : n / 10 < n := Nat.div_lt_self (by omega) (by omega)
        omega
      rw [ih (n / 10) (Nat.digitChar (n % 10) :: ds) hlt]
      rw [digitCount_ge10 n (by omega)]
      simp
      omega

/-- The decimal string produced by `Nat.repr` has exactly `digitCount n`
characters. -/
theorem repr_len_eq_digitCount (n : Nat) : (Nat.repr n).length = digitCount n := by
  have h := toDigitsCore_digit_len (n + 1) n [] (Nat.lt_succ_self n)
  simpa [Nat.repr, Nat.toDigits, String.length, List.asString] using h

/-! ### Claim C8: padding width -/

/-- Claim C8: for every probed duration `d`, the segment-index padding
width equals the number of decimal digits of `ceil(d / 10)` (segment
duration fixed at 10 seconds); in particular duration 95 gives
`estimatedSegments = 10`, padding width 2, and index 0 rendered `"00"`. -/
theorem claim_C8 (d : ℚ) :
    paddingOf d = digitCount (estimatedSegments d)
      ∧ estimatedSegments 95 = 10
      ∧ paddingOf 95 = 2
      ∧ zeroPad (paddingOf 95) 0 = "00" := by
  have hceil : ⌈(95 : ℚ) / 10⌉ = (10 : ℤ) := by
    rw [Int.ceil_eq_iff]
    constructor <;> norm_num
  have hseg : estimatedSegments 95 = 10 := by
    unfold estimatedSegments
    rw [hceil]
    rfl
  have hpad : paddingOf 95 = 2 := by
    unfold paddingOf
    rw [hseg]
    rfl
  refine ⟨repr_len_eq_digitCount _, hseg, hpad, ?_⟩
  rw [hpad]
  rfl

/-! ### Claim C9: empty plan still succeeds -/

/-- Claim C9: when the probed dimensions are smaller than every catalog
entry the plan is empty, the worker skips encoding entirely, uploads a
master manifest consisting of the header alone (zero variant entries),
and exits with status 0 (assuming the manifest upload itself succeeds). -/
theorem claim_C9 (w h : Nat) (encOk : Rendition → Bool)
    (hsmall : ∀ r ∈ RESOLUTIONS, w < r.width ∨ h < r.height) :
    getValidResolutions w h = []
      ∧ (runWorker w h encOk true).attempted = []
      ∧ (runWorker w h encOk true).masterUploaded = some "#EXTM3U\n#EXT-X-VERSION:3\n"
      ∧ (runWorker w h encOk true).exitCode = 0 := by
  have hplan : getValidResolutions w h = [] := by
    unfold getValidResolutions
    rw [List.filter_eq_nil_iff]
    intro r hr
    rcases hsmall r hr with hw | hh
    · simp [Nat.not_le_of_lt hw]
    · simp [Nat.not_le_of_lt hh]
  have hcontent : masterPlaylistContent w h = "#EXTM3U\n#EXT-X-VERSION:3\n" := by
    unfold masterPlaylistContent
    have : RESOLUTIONS.filter
        (fun r => decide (r.width ≤ w) && decide (r.height ≤ h)) = [] := hplan
    rw [this]
    rfl
  refine ⟨hplan, ?_, ?_, ?_⟩ <;>
    simp [runWorker, hplan, runLoop, hcontent]

/-- Witness for C9 at probe 0×0: the plan is empty, nothing is attempted,
the manifest is the bare header, and the worker exits 0. -/
theorem claim_C9_witness :
    getValidResolutions 0 0 = []
      ∧ (runWorker 0 0 encOkOnly144 true).attempted = []
      ∧ (runWorker 0 0 encOkOnly144 true).masterUploaded = some "#EXTM3U\n#EXT-X-VERSION:3\n"
      ∧ (runWorker 0 0 encOkOnly144 true).exitCode = 0 :=
  claim_C9 0 0 encOkOnly144 (by decide)

/-! ### Event dispatcher (src/consumer/src/index.ts)

The dispatcher long-polls SQS; `processMessage` handles one message. Its
observable effects are the SQS `DeleteMessage` calls and the ECS
`RunTask` calls it issues, recorded here as an action trace. JSON parsing
is an external collaborator: a message body is modelled by its parse
outcome (absent/empty body, malformed JSON, or a parsed event shape).
The outcome of each ECS launch is the oracle `launchOk`; a parsed payload
without a `Records` array makes the record loop throw, which the caller's
`try`/`catch` absorbs, and is outside the shapes modelled here. -/

/-- Calls the dispatcher issues against its collaborators: deleting a
queue message by receipt handle, or launching a transcode task for an
object key in a bucket. -/
inductive DispatchCall where
  | deleteMsg : String → DispatchCall
  | runTask : String → String → DispatchCall
deriving DecidableEq

/-- One record of an S3 notification payload. `none` models an absent
field; `some ""` models a present-but-empty one (both are falsy in the
source's checks). -/
structure S3Record where
  bucketName : Option String
  key : Option String
deriving DecidableEq

/-- JS truthiness of an optional string: present and non-empty. -/
def truthyStr : Option String → Bool
  | none => false
  | some s => !s.isEmpty

/-- The extension allow-list (src/consumer/src/index.ts:25-32). -/
def ACCEPTABLE_FORMATS : List String :=
  [".MP4", ".MOV", ".AVI", ".WMV", ".FLV", ".WEBM"]

/-- Basename of a path: the characters after the last `/`. -/
def basenameChars (cs : List Char) : List Char :=
  (cs.reverse.takeWhile (fun c => c != '/')).reverse

/-- Node `path.extname` on a list of characters: the substring of the
basename from its last `.` to the end, unless that dot is the basename's
first character or absent (then the empty string). -/
def extnameChars (cs : List Char) : List Char :=
  if ((basenameChars cs).reverse.takeWhile (fun c => c != '.')).length + 1
      < (basenameChars cs).length then
    '.' :: ((basenameChars cs).reverse.takeWhile (fun c => c != '.')).reverse
  else []

/-- Extension `path.extname(key).toUpperCase()` as the dispatcher computes it. -/
def extUpper (k : String) : String :=
  String.mk ((extnameChars k.data).map Char.toUpper)

/-- Parsed shape of a message body that is valid JSON: whether a
`Service` field is present, the value of the `Event` field when present,
and the `Records` array. -/
structure EventShape where
  hasService : Bool
  eventVal : Option String
  records : List S3Record

/-- Parse outcome of a queue message's body: absent/empty body, body
that is not valid JSON, or a parsed event. -/
inductive BodyState where
  | empty
  | invalidJson
  | parsed (e : EventShape)

/-- Per-record acceptance (src/consumer/src/index.ts:102-120): truthy
bucket name, truthy key, and an allow-listed (upper-cased) extension. -/
def acceptedR (r : S3Record) : Bool :=
  truthyStr r.bucketName && truthyStr r.key &&
    ACCEPTABLE_FORMATS.contains (extUpper (r.key.getD ""))

/-- The record loop of `processMessage`
(src/consumer/src/index.ts:95-161): each record with a falsy bucket name,
falsy key, or disallowed extension is skipped; an accepted record issues
one RunTask call, followed — only when the launch succeeds (`launchOk`) —
by one DeleteMessage call; a failed launch is logged and the loop
continues with the next record. -/
def processRecords (rh : String) (launchOk : S3Record → Bool) :
    List S3Record → List DispatchCall
  | [] => []
  | r :: rs =>
    if !truthyStr r.bucketName then processRecords rh launchOk rs
    else if !truthyStr r.key then processRecords rh launchOk rs
    else if !(ACCEPTABLE_FORMATS.contains (extUpper (r.key.getD ""))) then
      processRecords rh launchOk rs
    else
      DispatchCall.runTask (r.key.getD "") (r.bucketName.getD "") ::
        (if launchOk r then
          DispatchCall.deleteMsg rh :: processRecords rh launchOk rs
        else processRecords rh launchOk rs)

/-- Handler `processMessage` (src/consumer/src/index.ts:69-162) as a call trace:
an absent/empty body or a body that fails JSON parsing issues no call and
returns; a parsed payload with a `Service` field and `Event` field equal
to `"s3:TestEvent"` issues exactly one DeleteMessage call; any other
parsed payload runs the record loop. -/
def processMessage (rh : String) (launchOk : S3Record → Bool) :
    BodyState → List DispatchCall
  | .empty => []
  | .invalidJson => []
  | .parsed e =>
    if e.hasService && (e.eventVal == some "s3:TestEvent") then
      [DispatchCall.deleteMsg rh]
    else processRecords rh launchOk e.records

/-- One iteration of the dispatch loop body over the received messages
(src/consumer/src/index.ts:179-181): each message (receipt handle and
body parse outcome) is processed in order; no message aborts the loop. -/
def processBatch (launchOk : S3Record → Bool) :
    List (String × BodyState) → List DispatchCall
  | [] => []
  | m :: ms => processMessage m.1 launchOk m.2 ++ processBatch launchOk ms

/-- Number of queue DeleteMessage calls in a trace. -/
def deleteCount (as : List DispatchCall) : Nat :=
  (as.filter fun a => match a with
    | .deleteMsg _ => true
    | _ => false).length

/-- Number of compute-dispatch RunTask calls in a trace. -/
def launchCount (as : List DispatchCall) : Nat :=
  (as.filter fun a => match a with
    | .runTask _ _ => true
    | _ => false).length

/-! ### Claim C5: test events are acknowledged without a launch -/

/-- Claim C5: for every message whose body parses to a TestEvent (a
payload with `Service` and `Event` fields where `Event` is
`"s3:TestEvent"`), processing issues exactly one queue delete call and
zero compute-dispatch launch calls. -/
theorem claim_C5 (rh : String) (launchOk : S3Record → Bool) (e : EventShape)
    (hs : e.hasService = true) (he : e.eventVal = some "s3:TestEvent") :
    processMessage rh launchOk (.parsed e) = [DispatchCall.deleteMsg rh]
      ∧ deleteCount (processMessage rh launchOk (.parsed e)) = 1
      ∧ launchCount (processMessage rh launchOk (.parsed e)) = 0 := by
  have htrace : processMessage rh launchOk (.parsed e) = [DispatchCall.deleteMsg rh] := by
    unfold processMessage
    simp [hs, he]
  refine ⟨htrace, ?_, ?_⟩ <;> rw [htrace] <;> rfl

/-- Launch oracle for the dispatcher witnesses: every launch succeeds. -/
def launchAlwaysOk : S3Record → Bool := fun _ => true

/-- A concrete TestEvent shape for the C5 witness. -/
def testEventShape : EventShape := ⟨true, some "s3:TestEvent", []⟩

/-- Witness for C5: a concrete TestEvent yields exactly one delete and
zero launches. -/
theorem claim_C5_witness :
    processMessage "rh0" launchAlwaysOk (.parsed testEventShape)
        = [DispatchCall.deleteMsg "rh0"]
      ∧ deleteCount (processMessage "rh0" launchAlwaysOk (.parsed testEventShape)) = 1
      ∧ launchCount (processMessage "rh0" launchAlwaysOk (.parsed testEventShape)) = 0 :=
  claim_C5 "rh0" launchAlwaysOk testEventShape rfl rfl

/-! ### Claim C6: malformed JSON is left un-acknowledged -/

/-- Claim C6: a message whose body is not valid JSON produces no delete
call and no launch call (it stays un-acknowledged for redelivery), and
the dispatch loop continues with the remaining messages unchanged. -/
theorem claim_C6 (rh : String) (launchOk : S3Record → Bool)
    (rest : List (String × BodyState)) :
    processMessage rh launchOk .invalidJson = []
      ∧ deleteCount (processMessage rh launchOk .invalidJson) = 0
      ∧ launchCount (processMessage rh launchOk .invalidJson) = 0
      ∧ processBatch launchOk ((rh, .invalidJson) :: rest) = processBatch launchOk rest := by
  exact ⟨rfl, rfl, rfl, rfl⟩

/-! ### Claim C10: absent or empty body is left un-acknowledged -/

/-- Claim C10: a message whose `Body` is absent or empty produces no
delete call and no launch call (the message is left for redelivery), and
the dispatch loop continues with the remaining messages unchanged. -/
theorem claim_C10 (rh : String) (launchOk : S3Record → Bool)
    (rest : List (String × BodyState)) :
    processMessage rh launchOk .empty = []
      ∧ deleteCount (processMessage rh launchOk .empty) = 0
      ∧ launchCount (processMessage rh launchOk .empty) = 0
      ∧ processBatch launchOk ((rh, .empty) :: rest) = processBatch launchOk rest := by
  exact ⟨rfl, rfl, rfl, rfl⟩

/-! ### Claim C7: per-record acknowledgment -/

/-- Specification-level trace of one record: nothing for a rejected
record; a RunTask call immediately followed by a DeleteMessage call for
an accepted record whose launch succeeds; a RunTask call alone for an
accepted record whose launch fails. -/
def recTrace (rh : String) (launchOk : S3Record → Bool) (r : S3Record) :
    List DispatchCall :=
  if acceptedR r then
    if launchOk r then
      [DispatchCall.runTask (r.key.getD "") (r.bucketName.getD ""),
        DispatchCall.deleteMsg rh]
    else [DispatchCall.runTask (r.key.getD "") (r.bucketName.getD "")]
  else []

/-- The record loop's trace is the concatenation of the per-record
traces. -/
theorem processRecords_eq_flatMap (rh : String) (launchOk : S3Record → Bool) :
    ∀ rs : List S3Record,
      processRecords rh launchOk rs = rs.flatMap (recTrace rh launchOk) := by
  intro rs
  induction rs with
  | nil => rfl
  | cons r rs ih =>
    simp only [processRecords, List.flatMap_cons, recTrace, acceptedR]
    by_cases hb : truthyStr r.bucketName = true
    · by_cases hk : truthyStr r.key = true
      · by_cases hf : extUpper (r.key.getD "") ∈ ACCEPTABLE_FORMATS
        · by_cases ho : launchOk r = true <;> simp [hb, hk, hf, ho, ih]
        · simp [hb, hk, hf, ih]
      · simp [hb, hk, ih]
    · simp [hb, ih]

/-- Prepending a DeleteMessage call raises the delete count by one. -/
theorem deleteCount_del_cons (rh : String) (l : List DispatchCall) :
    deleteCount (DispatchCall.deleteMsg rh :: l) = deleteCount l + 1 := by
  simp [deleteCount, List.filter_cons]

/-- Prepending a RunTask call leaves the delete count unchanged. -/
theorem deleteCount_run_cons (k b : String) (l : List DispatchCall) :
    deleteCount (DispatchCall.runTask k b :: l) = deleteCount l := by
  simp [deleteCount, List.filter_cons]

/-- Delete calls in the record loop's trace: one per accepted record
whose launch succeeds. -/
theorem deleteCount_processRecords (rh : String) (launchOk : S3Record → Bool) :
    ∀ rs : List S3Record,
      deleteCount (processRecords rh launchOk rs)
        = (rs.filter (fun r => acceptedR r && launchOk r)).length := by
  intro rs
  induction rs with
  | nil => rfl
  | cons r rs ih =>
    by_cases hb : truthyStr r.bucketName = true
    · by_cases hk : truthyStr r.key = true
      · by_cases hf : extUpper (r.key.getD "") ∈ ACCEPTABLE_FORMATS
        · have ha : acceptedR r = true := by simp [acceptedR, hb, hk, hf]
          by_cases ho : launchOk r = true
          · have hstep : processRecords rh launchOk (r :: rs)
                = DispatchCall.runTask (r.key.getD "") (r.bucketName.getD "")
                    :: DispatchCall.deleteMsg rh :: processRecords rh launchOk rs := by
              simp [processRecords, hb, hk, hf, ho]
            rw [hstep, deleteCount_run_cons, deleteCount_del_cons, ih, List.filter_cons]
            simp [ha, ho]
          · have hstep : processRecords rh launchOk (r :: rs)
                = DispatchCall.runTask (r.key.getD "") (r.bucketName.getD "")
                    :: processRecords rh launchOk rs := by
              simp [processRecords, hb, hk, hf, ho]
            rw [hstep, deleteCount_run_cons, ih, List.filter_cons]
            simp [ha, ho]
        · have ha : acceptedR r = false := by simp [acceptedR, hf]
          have hstep : processRecords rh launchOk (r :: rs)
              = processRecords rh launchOk rs := by
            simp [processRecords, hb, hk, hf]
          rw [hstep, ih, List.filter_cons]
          simp [ha]
      · have ha : acceptedR r = false := by simp [acceptedR, hk]
        have hstep : processRecords rh launchOk (r :: rs)
            = processRecords rh launchOk rs := by
          simp [processRecords, hb, hk]
        rw [hstep, ih, List.filter_cons]
        simp [ha]
    · have ha : acceptedR r = false := by simp [acceptedR, hb]
      have hstep : processRecords rh launchOk (r :: rs)
          = processRecords rh launchOk rs := by
        simp [processRecords, hb]
      rw [hstep, ih, List.filter_cons]
      simp [ha]

/-- Claim C7: for a message whose `n ≥ 1` accepted records all launch
successfully, the record loop issues the delete call exactly `n` times —
once immediately after each successful launch (per-record, not once per
message, as the per-record trace shows) — and a record whose launch
fails contributes a RunTask call with no delete, while the records after
it are still processed. -/
theorem claim_C7 (rh : String) (launchOk : S3Record → Bool) (rs : List S3Record) :
    processRecords rh launchOk rs = rs.flatMap (recTrace rh launchOk)
      ∧ ((∀ r ∈ rs, acceptedR r = true → launchOk r = true) →
          1 ≤ (rs.filter acceptedR).length →
          deleteCount (processRecords rh launchOk rs) = (rs.filter acceptedR).length)
      ∧ (∀ (pre post : List S3Record) (r : S3Record),
          acceptedR r = true → launchOk r = false →
          processRecords rh launchOk (pre ++ r :: post)
            = processRecords rh launchOk pre
                ++ DispatchCall.runTask (r.key.getD "") (r.bucketName.getD "")
                  :: processRecords rh launchOk post) := by
  refine ⟨processRecords_eq_flatMap rh launchOk rs, ?_, ?_⟩
  · intro hall _
    rw [deleteCount_processRecords rh launchOk rs]
    congr 1
    apply List.filter_congr
    intro r hr
    cases ha : acceptedR r
    · simp
    · simp [hall r hr ha]
  · intro pre post r ha ho
    rw [processRecords_eq_flatMap rh launchOk (pre ++ r :: post),
      processRecords_eq_flatMap rh launchOk pre,
      processRecords_eq_flatMap rh launchOk post,
      List.flatMap_append, List.flatMap_cons]
    simp [recTrace, ha, ho]

/-- Two accepted records for the C7 witness. -/
def demoRecords : List S3Record :=
  [⟨some "ingest", some "videos/a.mp4"⟩, ⟨some "ingest", some "videos/b.mov"⟩]

/-- Launch oracle for the C7 witness's failure scenario: the launch for
object key `videos/a.mp4` fails, every other launch succeeds. -/
def launchFailA (r : S3Record) : Bool := !(r.key == some "videos/a.mp4")

/-- Witness for C7: with both demo records accepted and both launches
succeeding the loop deletes the message twice (once per record); with the
first record's launch failing, its delete is withheld while the second
record is still processed. -/
theorem claim_C7_witness :
    deleteCount (processRecords "r0" launchAlwaysOk demoRecords)
        = (demoRecords.filter acceptedR).length
      ∧ processRecords "r0" launchFailA
            ([] ++ (⟨some "ingest", some "videos/a.mp4"⟩ : S3Record)
              :: [(⟨some "ingest", some "videos/b.mov"⟩ : S3Record)])
          = processRecords "r0" launchFailA []
              ++ DispatchCall.runTask "videos/a.mp4" "ingest"
                :: processRecords "r0" launchFailA
                    [(⟨some "ingest", some "videos/b.mov"⟩ : S3Record)] :=
  ⟨(claim_C7 "r0" launchAlwaysOk demoRecords).2.1 (by decide) (by decide),
    (claim_C7 "r0" launchFailA
        ([] ++ (⟨some "ingest", some "videos/a.mp4"⟩ : S3Record)
          :: [(⟨some "ingest", some "videos/b.mov"⟩ : S3Record)])).2.2
      [] [(⟨some "ingest", some "videos/b.mov"⟩ : S3Record)]
      (⟨some "ingest", some "videos/a.mp4"⟩ : S3Record) (by decide) (by decide)⟩
